import Mathlib

/-
Shallow embedding of the core of the VirtualTradingPlatform backend
(src/backend/app/services/trading_engine.py, services/strategy.py,
crud/user.py, models/user.py, schemas/strategy.py).

Python floats (cash balances, prices, costs) are modelled as rationals;
Python ints (share quantities, identifiers) as integers.  The SQLAlchemy
ORM state touched by the engine is modelled explicitly: a portfolio row
together with the list of its position rows.  Fallible operations return
an explicit success flag together with the resulting state; the Python
code only ever mutates state after all its rejection checks, so a
rejected operation returns the input state unchanged, exactly as the
source does.
-/

namespace VTP

/-- Order side, models `OrderType` in app/models/user.py. -/
inductive OrderType where
  | BUY
  | SELL
deriving DecidableEq, Repr

/-- Order lifecycle status, models `OrderStatus` in app/models/user.py. -/
inductive OrderStatus where
  | PENDING
  | EXECUTED
  | CANCELLED
deriving DecidableEq, Repr

/-- Strategy lifecycle status, models `StrategyStatus` in app/models/user.py. -/
inductive StrategyStatus where
  | DRAFT
  | ACTIVE
  | PAUSED
  | STOPPED
deriving DecidableEq, Repr

/-- A position row, models the `Position` table in app/models/user.py. -/
structure Position where
  symbol : String
  quantity : ℤ
  average_cost : ℚ
  current_price : ℚ
  market_value : ℚ
  unrealized_pnl : ℚ
deriving DecidableEq, Repr

/-- A portfolio row together with its position rows, models the
`Portfolio` table in app/models/user.py (scoped to one portfolio id). -/
structure Portfolio where
  cash_balance : ℚ
  total_value : ℚ
  positions : List Position
deriving DecidableEq, Repr

/-- A trade (order) row, models the `Trade` table in app/models/user.py,
restricted to the fields the execution engine reads or writes. -/
structure Trade where
  symbol : String
  order_type : OrderType
  quantity : ℤ
  status : OrderStatus
deriving DecidableEq, Repr

/-- Models `get_position_by_symbol` in app/crud/user.py: the position row
of this portfolio with the given symbol, if any (symbol is unique within
a portfolio, so the first match is the only match). -/
def get_position_by_symbol (pf : Portfolio) (symbol : String) : Option Position :=
  pf.positions.find? (fun p => p.symbol == symbol)

/-- Models `update_position` in app/crud/user.py: write quantity, average
cost and current price to a position row and recompute the derived
`market_value` and `unrealized_pnl` columns. -/
def update_position (quantity : ℤ) (average_cost : ℚ) (current_price : ℚ)
    (p : Position) : Position :=
  { p with
    quantity := quantity
    average_cost := average_cost
    current_price := current_price
    market_value := (quantity : ℚ) * current_price
    unrealized_pnl := (current_price - average_cost) * (quantity : ℚ) }

/-- Models `create_position` in app/crud/user.py: a fresh position row
with the derived columns computed the same way. -/
def create_position (symbol : String) (quantity : ℤ) (average_cost : ℚ)
    (current_price : ℚ) : Position :=
  { symbol := symbol
    quantity := quantity
    average_cost := average_cost
    current_price := current_price
    market_value := (quantity : ℚ) * current_price
    unrealized_pnl := (current_price - average_cost) * (quantity : ℚ) }

/-- Replace the position row found by `get_position_by_symbol` (the first
row matching the symbol) with a new row: the list-level effect of the
row-keyed SQL UPDATE issued by `update_position`. -/
def writePositionRow : List Position → String → Position → List Position
  | [], _, _ => []
  | p :: ps, sym, newRow =>
    if p.symbol == sym then newRow :: ps
    else p :: writePositionRow ps sym newRow

/-- Delete the position row found by `get_position_by_symbol`: the
list-level effect of `db.delete(position)` in `_execute_sell_order`. -/
def deletePositionRow : List Position → String → List Position
  | [], _ => []
  | p :: ps, sym =>
    if p.symbol == sym then ps
    else p :: deletePositionRow ps sym

/-- Models `TradingEngine._execute_buy_order` in
app/services/trading_engine.py.  Returns the success flag the Python
method returns, together with the portfolio state after the call (the
Python mutates `portfolio`/position rows in place; every rejection
happens before any mutation, so the rejected case returns the input). -/
def execute_buy_order (pf : Portfolio) (trade : Trade) (current_price : ℚ) :
    Bool × Portfolio :=
  let total_cost := (trade.quantity : ℚ) * current_price
  if pf.cash_balance < total_cost then
    (false, pf)
  else
    let pf1 : Portfolio := { pf with cash_balance := pf.cash_balance - total_cost }
    match get_position_by_symbol pf1 trade.symbol with
    | some position =>
      let new_quantity := position.quantity + trade.quantity
      let new_average_cost :=
        ((position.average_cost * (position.quantity : ℚ)) + total_cost) / (new_quantity : ℚ)
      (true, { pf1 with
        positions := writePositionRow pf1.positions trade.symbol
          (update_position new_quantity new_average_cost current_price position) })
    | none =>
      (true, { pf1 with
        positions := pf1.positions ++
          [create_position trade.symbol trade.quantity current_price current_price] })

/-- Models `TradingEngine._execute_sell_order` in
app/services/trading_engine.py. -/
def execute_sell_order (pf : Portfolio) (trade : Trade) (current_price : ℚ) :
    Bool × Portfolio :=
  match get_position_by_symbol pf trade.symbol with
  | none => (false, pf)
  | some position =>
    if position.quantity < trade.quantity then
      (false, pf)
    else
      let proceeds := (trade.quantity : ℚ) * current_price
      let pf1 : Portfolio := { pf with cash_balance := pf.cash_balance + proceeds }
      let new_quantity := position.quantity - trade.quantity
      if new_quantity = 0 then
        (true, { pf1 with positions := deletePositionRow pf1.positions trade.symbol })
      else
        (true, { pf1 with
          positions := writePositionRow pf1.positions trade.symbol
            (update_position new_quantity position.average_cost current_price position) })

/-- Dispatch on the order side, as `TradingEngine.execute_trade` does
after it has obtained a price. -/
def execute_order (pf : Portfolio) (trade : Trade) (current_price : ℚ) :
    Bool × Portfolio :=
  match trade.order_type with
  | OrderType.BUY => execute_buy_order pf trade current_price
  | OrderType.SELL => execute_sell_order pf trade current_price

/-- Models `TradingEngine.execute_trade` in
app/services/trading_engine.py: `quote` is the result of
`market_service.get_quote(trade.symbol)` (`none` when the quote source
returns no quote).  With no quote the method returns False before
touching any state; on success it marks the trade EXECUTED. -/
def execute_trade (quote : Option ℚ) (pf : Portfolio) (trade : Trade) :
    Bool × Portfolio × Trade :=
  match quote with
  | none => (false, pf, trade)
  | some current_price =>
    let r := execute_order pf trade current_price
    if r.1 then
      (true, r.2, { trade with status := OrderStatus.EXECUTED })
    else
      (false, r.2, trade)

/-- Run a sequence of orders against one portfolio, each order paired
with the price quoted for it at execution time. -/
def run_orders (pf : Portfolio) : List (Trade × ℚ) → Portfolio
  | [] => pf
  | (trade, price) :: rest => run_orders (execute_order pf trade price).2 rest

/-- The in-place field updates `_update_portfolio_value` performs on one
position row when a quote is available for its symbol. -/
def refresh_with_quote (price : ℚ) (p : Position) : Position :=
  { p with
    current_price := price
    market_value := (p.quantity : ℚ) * price
    unrealized_pnl := (price - p.average_cost) * (p.quantity : ℚ) }

/-- The loop body of `TradingEngine._update_portfolio_value`: walk the
position rows; whenever a quote is available refresh the row and add its
new market value to the running total; a row whose quote fetch fails is
left untouched and contributes nothing to the total.  Returns the
refreshed rows and the accumulated market value. -/
def revalue_positions (quotes : String → Option ℚ) :
    List Position → List Position × ℚ
  | [] => ([], 0)
  | p :: ps =>
    let rest := revalue_positions quotes ps
    match quotes p.symbol with
    | some price =>
      let p1 := refresh_with_quote price p
      (p1 :: rest.1, p1.market_value + rest.2)
    | none => (p :: rest.1, rest.2)

/-- Models `TradingEngine._update_portfolio_value` in
app/services/trading_engine.py: `quotes` gives the result of
`market_service.get_quote` per symbol (`none` = fetch failed).  The
total starts from the cash balance and accumulates the market values of
the successfully refreshed rows. -/
def update_portfolio_value (quotes : String → Option ℚ) (pf : Portfolio) :
    Portfolio :=
  let r := revalue_positions quotes pf.positions
  { pf with positions := r.1, total_value := pf.cash_balance + r.2 }

/-- A strategy row, models the `Strategy` table in app/models/user.py,
restricted to the fields the webhook/signal path reads.  The `user_id`
column is declared NOT NULL in the schema, but the lookup in
`StrategyService.get_strategy` compares the column against a possibly
absent Python value, so the stored column value is modelled as an
`Option` to express the SQL `IS NULL` comparison. -/
structure Strategy where
  id : ℤ
  user_id : Option ℤ
  portfolio_id : ℤ
  status : StrategyStatus
  capital_allocation : ℚ
  max_position_size : ℚ
deriving DecidableEq, Repr

/-- A webhook signal, models `WebhookSignal` in app/schemas/strategy.py
(the fields the translator reads). -/
structure WebhookSignal where
  strategy_id : ℤ
  action : String
  symbol : String
  quantity : Option ℤ
  price : Option ℚ
  percentage : Option ℚ
deriving DecidableEq, Repr

/-- Python `int()` applied to a rational: truncation toward zero
(`Int.div` on the reduced numerator and denominator is T-division). -/
def pyTrunc (q : ℚ) : ℤ :=
  q.num / (q.den : ℤ)

/-- Models `StrategyService._calculate_quantity` in
app/services/strategy.py.  `if signal.percentage:` is Python truthiness
(None and 0.0 are falsy); `if signal.price and signal.price > 0:`
likewise; when neither branch returns, the final
`max(1, int(capital_allocation * max_position_size / (signal.price or 100)))`
runs, where `signal.price or 100` is the price when truthy and the
literal 100 otherwise.  No live quote is consulted anywhere here. -/
def calculate_quantity (strategy : Strategy) (signal : WebhookSignal) : ℤ :=
  let fallback : ℤ :=
    max 1 (pyTrunc (strategy.capital_allocation * strategy.max_position_size /
      (match signal.price with
       | some pr => if pr = 0 then 100 else pr
       | none => 100)))
  match signal.percentage with
  | none => fallback
  | some pct =>
    if pct = 0 then fallback
    else
      let position_value := strategy.capital_allocation * (pct / 100)
      match signal.price with
      | some pr =>
        if pr ≠ 0 ∧ 0 < pr then max 1 (pyTrunc (position_value / pr))
        else fallback
      | none => fallback

/-- Models the quantity and price a webhook signal resolves to on the
path `_process_signal` → `_create_trade_from_signal` in
app/services/strategy.py: the execution quantity is
`signal.quantity or _calculate_quantity(strategy, signal)` and the
execution price is `signal.price or 0.0`, replaced by the live `quote`
when it is 0.0 (raising, i.e. `none`, when no quote is available). -/
def trade_from_signal (strategy : Strategy) (signal : WebhookSignal)
    (quote : Option ℚ) : Option (ℤ × ℚ) :=
  let quantity : ℤ :=
    match signal.quantity with
    | some q => if q = 0 then calculate_quantity strategy signal else q
    | none => calculate_quantity strategy signal
  let price0 : ℚ :=
    match signal.price with
    | some pr => pr
    | none => 0
  if price0 = 0 then
    match quote with
    | none => none
    | some pr => some (quantity, pr)
  else
    some (quantity, price0)

/-- Outcome of the webhook entry point, as far as the strategy-lookup
and activity gate of `execute_webhook_signal` decides it: `rejected`
carries the error string returned to the caller; `accepted` means the
handler went on to signature verification and signal processing (the
only path on which an order can be created). -/
inductive WebhookOutcome where
  | rejected : String → WebhookOutcome
  | accepted : Strategy → WebhookOutcome
deriving DecidableEq, Repr

/-- Models `StrategyService.get_strategy` in app/services/strategy.py:
`SELECT ... WHERE id = strategy_id AND user_id = :user_id`, where a
Python `None` for `user_id` makes SQLAlchemy emit `user_id IS NULL`,
and a concrete value compares by SQL equality (NULL never equal). -/
def get_strategy (db : List Strategy) (user_id : Option ℤ) (strategy_id : ℤ) :
    Option Strategy :=
  db.find? (fun s =>
    s.id == strategy_id &&
    (match user_id with
     | none => s.user_id == none
     | some u => s.user_id == some u))

/-- Models the gate at the top of `StrategyService.execute_webhook_signal`
in app/services/strategy.py: the strategy is looked up with
`self.get_strategy(db, None, signal.strategy_id)` and the request is
rejected unless a strategy is found and is ACTIVE. -/
def execute_webhook_signal (db : List Strategy) (signal : WebhookSignal) :
    WebhookOutcome :=
  match get_strategy db none signal.strategy_id with
  | none => WebhookOutcome.rejected "Strategy not found or not active"
  | some strategy =>
    if strategy.status ≠ StrategyStatus.ACTIVE then
      WebhookOutcome.rejected "Strategy not found or not active"
    else
      WebhookOutcome.accepted strategy

/-! ### Concrete instances (the spec's own scenarios) -/

/-- A fresh portfolio with the starting virtual cash of 100000. -/
def demoPortfolio : Portfolio :=
  { cash_balance := 100000, total_value := 100000, positions := [] }

/-- BUY 10 shares of ABC. -/
def buyABC : Trade :=
  { symbol := "ABC", order_type := OrderType.BUY, quantity := 10,
    status := OrderStatus.PENDING }

/-- SELL 10 shares of ABC. -/
def sellABC : Trade :=
  { symbol := "ABC", order_type := OrderType.SELL, quantity := 10,
    status := OrderStatus.PENDING }

/-- The spec's happy-path order sequence: BUY 10 ABC at 50 then SELL 10
ABC at 60. -/
def demoOrders : List (Trade × ℚ) := [(buyABC, 50), (sellABC, 60)]

/-- Index of the first order of `demoOrders`. -/
def demoIndex : Fin demoOrders.length := ⟨0, by simp [demoOrders]⟩

/-- BUY 1000 shares of ABC (the spec's insufficient-funds scenario at
price 200). -/
def bigBuy : Trade :=
  { symbol := "ABC", order_type := OrderType.BUY, quantity := 1000,
    status := OrderStatus.PENDING }

/-- An existing holding: 5 shares of ABC at average cost 40. -/
def heldPosition : Position :=
  { symbol := "ABC", quantity := 5, average_cost := 40, current_price := 50,
    market_value := 250, unrealized_pnl := 50 }

/-- A portfolio holding `heldPosition` with ample cash. -/
def heldPortfolio : Portfolio :=
  { cash_balance := 100000, total_value := 100250, positions := [heldPosition] }

/-- SELL exactly the held 5 shares of ABC. -/
def sellAllABC : Trade :=
  { symbol := "ABC", order_type := OrderType.SELL, quantity := 5,
    status := OrderStatus.PENDING }

/-- A quote source for which every fetch fails. -/
def noQuotes : String → Option ℚ := fun _ => none

/-- An ACTIVE strategy owned by user 1 with capital allocation 10000 and
the column-default max position size 0.1. -/
def demoStrategy : Strategy :=
  { id := 1, user_id := some 1, portfolio_id := 1,
    status := StrategyStatus.ACTIVE, capital_allocation := 10000,
    max_position_size := 1 / 10 }

/-- The spec's webhook scenario signal: BUY XYZ at 50% of capital, with
no explicit quantity and no price. -/
def pctSignal : WebhookSignal :=
  { strategy_id := 1, action := "BUY", symbol := "XYZ", quantity := none,
    price := none, percentage := some 50 }

/-- The same percentage signal but carrying an explicit price of 20. -/
def pctSignalPriced : WebhookSignal :=
  { strategy_id := 1, action := "BUY", symbol := "XYZ", quantity := none,
    price := some 20, percentage := some 50 }

/-! ### Helper lemmas about the row-level list operations -/

theorem find?_writePositionRow (ps : List Position) (sym : String)
    (newRow : Position) (hn : (newRow.symbol == sym) = true) (pos : Position)
    (h : ps.find? (fun p => p.symbol == sym) = some pos) :
    (writePositionRow ps sym newRow).find? (fun p => p.symbol == sym) = some newRow := by
  induction ps with
  | nil => simp at h
  | cons a l ih =>
    by_cases ha : (a.symbol == sym) = true
    · rw [writePositionRow, if_pos ha]
      exact List.find?_cons_of_pos _ hn
    · rw [writePositionRow, if_neg ha]
      rw [List.find?_cons_of_neg _ (by simpa using ha)] at h
      rw [List.find?_cons_of_neg _ (by simpa using ha)]
      exact ih h

theorem find?_deletePositionRow (ps : List Position) (sym : String)
    (hU : (ps.map Position.symbol).Nodup) (pos : Position)
    (h : ps.find? (fun p => p.symbol == sym) = some pos) :
    (deletePositionRow ps sym).find? (fun p => p.symbol == sym) = none := by
  induction ps with
  | nil => simp at h
  | cons a l ih =>
    rw [List.map_cons, List.nodup_cons] at hU
    by_cases ha : (a.symbol == sym) = true
    · rw [deletePositionRow, if_pos ha]
      rw [List.find?_eq_none]
      intro x hx hmatch
      apply hU.1
      rw [List.mem_map]
      refine ⟨x, hx, ?_⟩
      have h1 : x.symbol = sym := by simpa using hmatch
      have h2 : a.symbol = sym := by simpa using ha
      rw [h1, h2]
    · rw [deletePositionRow, if_neg ha]
      rw [List.find?_cons_of_neg _ (by simpa using ha)] at h
      rw [List.find?_cons_of_neg _ (by simpa using ha)]
      exact ih hU.2 h

theorem mem_writePositionRow (ps : List Position) (sym : String)
    (newRow : Position) (p : Position) (h : p ∈ writePositionRow ps sym newRow) :
    p ∈ ps ∨ p = newRow := by
  induction ps with
  | nil => simp [writePositionRow] at h
  | cons a l ih =>
    by_cases ha : (a.symbol == sym) = true
    · rw [writePositionRow, if_pos ha] at h
      rcases List.mem_cons.mp h with h1 | h1
      · right; exact h1
      · left; exact List.mem_cons_of_mem _ h1
    · rw [writePositionRow, if_neg ha] at h
      rcases List.mem_cons.mp h with h1 | h1
      · left; exact h1 ▸ List.mem_cons_self _ _
      · rcases ih h1 with h2 | h2
        · left; exact List.mem_cons_of_mem _ h2
        · right; exact h2

theorem mem_deletePositionRow (ps : List Position) (sym : String)
    (p : Position) (h : p ∈ deletePositionRow ps sym) : p ∈ ps := by
  induction ps with
  | nil => simp [deletePositionRow] at h
  | cons a l ih =>
    by_cases ha : (a.symbol == sym) = true
    · rw [deletePositionRow, if_pos ha] at h
      exact List.mem_cons_of_mem _ h
    · rw [deletePositionRow, if_neg ha] at h
      rcases List.mem_cons.mp h with h1 | h1
      · exact h1 ▸ List.mem_cons_self _ _
      · exact List.mem_cons_of_mem _ (ih h1)

theorem find?_append_right {f : Position → Bool} (ps qs : List Position)
    (h : ps.find? f = none) : (ps ++ qs).find? f = qs.find? f := by
  induction ps with
  | nil => simp
  | cons a l ih =>
    by_cases ha : f a = true
    · rw [List.find?_cons_of_pos _ ha] at h
      exact absurd h (by simp)
    · rw [List.find?_cons_of_neg _ (by simpa using ha)] at h
      rw [List.cons_append, List.find?_cons_of_neg _ (by simpa using ha)]
      exact ih h

/-! ### Cash-flow lemmas for the execution engine -/

theorem buy_fail_state (pf : Portfolio) (trade : Trade) (price : ℚ)
    (h : (execute_buy_order pf trade price).1 = false) :
    (execute_buy_order pf trade price).2 = pf := by
  by_cases hlt : pf.cash_balance < (trade.quantity : ℚ) * price
  · simp [execute_buy_order, hlt]
  · cases hfind : pf.positions.find? (fun p => p.symbol == trade.symbol) with
    | some pos => simp [execute_buy_order, hlt, get_position_by_symbol, hfind] at h
    | none => simp [execute_buy_order, hlt, get_position_by_symbol, hfind] at h

theorem buy_success_cash (pf : Portfolio) (trade : Trade) (price : ℚ)
    (h : (execute_buy_order pf trade price).1 = true) :
    (execute_buy_order pf trade price).2.cash_balance
      = pf.cash_balance - (trade.quantity : ℚ) * price := by
  by_cases hlt : pf.cash_balance < (trade.quantity : ℚ) * price
  · simp [execute_buy_order, hlt] at h
  · cases hfind : pf.positions.find? (fun p => p.symbol == trade.symbol) with
    | some pos => simp [execute_buy_order, hlt, get_position_by_symbol, hfind]
    | none => simp [execute_buy_order, hlt, get_position_by_symbol, hfind]

theorem sell_fail_state (pf : Portfolio) (trade : Trade) (price : ℚ)
    (h : (execute_sell_order pf trade price).1 = false) :
    (execute_sell_order pf trade price).2 = pf := by
  cases hfind : get_position_by_symbol pf trade.symbol with
  | none => simp [execute_sell_order, hfind]
  | some pos =>
    by_cases hq : pos.quantity < trade.quantity
    · simp [execute_sell_order, hfind, hq]
    · by_cases h0 : pos.quantity - trade.quantity = 0 <;>
        simp [execute_sell_order, hfind, hq, h0] at h

theorem sell_success_cash (pf : Portfolio) (trade : Trade) (price : ℚ)
    (h : (execute_sell_order pf trade price).1 = true) :
    (execute_sell_order pf trade price).2.cash_balance
      = pf.cash_balance + (trade.quantity : ℚ) * price := by
  cases hfind : get_position_by_symbol pf trade.symbol with
  | none => simp [execute_sell_order, hfind] at h
  | some pos =>
    by_cases hq : pos.quantity < trade.quantity
    · simp [execute_sell_order, hfind, hq] at h
    · by_cases h0 : pos.quantity - trade.quantity = 0 <;>
        simp [execute_sell_order, hfind, hq, h0]

theorem execute_order_success_cash (pf : Portfolio) (trade : Trade) (price : ℚ)
    (h : (execute_order pf trade price).1 = true) :
    (trade.order_type = OrderType.BUY →
      (execute_order pf trade price).2.cash_balance
        = pf.cash_balance - (trade.quantity : ℚ) * price) ∧
    (trade.order_type = OrderType.SELL →
      (execute_order pf trade price).2.cash_balance
        = pf.cash_balance + (trade.quantity : ℚ) * price) := by
  cases hside : trade.order_type with
  | BUY =>
    rw [execute_order, hside] at h
    constructor
    · intro _
      rw [execute_order, hside]
      exact buy_success_cash pf trade price h
    · intro hcontra
      exact OrderType.noConfusion hcontra
  | SELL =>
    rw [execute_order, hside] at h
    constructor
    · intro hcontra
      exact OrderType.noConfusion hcontra
    · intro _
      rw [execute_order, hside]
      exact sell_success_cash pf trade price h

theorem execute_order_cash_nonneg (pf : Portfolio) (trade : Trade) (price : ℚ)
    (hc : 0 ≤ pf.cash_balance) (hq : 0 ≤ trade.quantity) (hp : 0 ≤ price) :
    0 ≤ (execute_order pf trade price).2.cash_balance := by
  have hqp : 0 ≤ (trade.quantity : ℚ) * price :=
    mul_nonneg (by exact_mod_cast hq) hp
  cases hside : trade.order_type with
  | BUY =>
    rw [execute_order, hside]
    cases hs : (execute_buy_order pf trade price).1 with
    | false => rw [buy_fail_state pf trade price hs]; exact hc
    | true =>
      rw [buy_success_cash pf trade price hs]
      by_cases hlt : pf.cash_balance < (trade.quantity : ℚ) * price
      · simp [execute_buy_order, hlt] at hs
      · linarith [not_lt.mp hlt]
  | SELL =>
    rw [execute_order, hside]
    cases hs : (execute_sell_order pf trade price).1 with
    | false => rw [sell_fail_state pf trade price hs]; exact hc
    | true =>
      rw [sell_success_cash pf trade price hs]
      linarith

theorem run_orders_cash_nonneg (orders : List (Trade × ℚ)) (pf : Portfolio)
    (hc : 0 ≤ pf.cash_balance)
    (hq : ∀ o ∈ orders, 0 ≤ o.1.quantity ∧ 0 ≤ o.2) :
    0 ≤ (run_orders pf orders).cash_balance := by
  induction orders generalizing pf with
  | nil => simpa [run_orders] using hc
  | cons o rest ih =>
    obtain ⟨trade, price⟩ := o
    rw [run_orders]
    refine ih _ ?_ (fun o ho => hq o (List.mem_cons_of_mem _ ho))
    exact execute_order_cash_nonneg pf trade price hc
      (hq _ (List.mem_cons_self _ _)).1 (hq _ (List.mem_cons_self _ _)).2

/-! ### Claim theorems -/

/-- C1: over any sequence of BUY/SELL orders against one portfolio
(each executed at its quoted price), every successful BUY fill debits
exactly `quantity * price` from the previous cash balance, every
successful SELL fill credits exactly `quantity * price`, and the cash
balance is never negative after any fill.  The hypotheses record the
environment: the portfolio starts with nonnegative cash and every order
has nonnegative quantity and quoted price. -/
theorem cash_ledger_invariant (pf : Portfolio) (orders : List (Trade × ℚ))
    (hc : 0 ≤ pf.cash_balance)
    (hq : ∀ o ∈ orders, 0 ≤ o.1.quantity ∧ 0 ≤ o.2) :
    ∀ i : Fin orders.length,
      ((execute_order (run_orders pf (orders.take i.1))
          (orders.get i).1 (orders.get i).2).1 = true →
        ((orders.get i).1.order_type = OrderType.BUY →
          (execute_order (run_orders pf (orders.take i.1))
              (orders.get i).1 (orders.get i).2).2.cash_balance
            = (run_orders pf (orders.take i.1)).cash_balance
              - ((orders.get i).1.quantity : ℚ) * (orders.get i).2) ∧
        ((orders.get i).1.order_type = OrderType.SELL →
          (execute_order (run_orders pf (orders.take i.1))
              (orders.get i).1 (orders.get i).2).2.cash_balance
            = (run_orders pf (orders.take i.1)).cash_balance
              + ((orders.get i).1.quantity : ℚ) * (orders.get i).2)) ∧
      0 ≤ (execute_order (run_orders pf (orders.take i.1))
          (orders.get i).1 (orders.get i).2).2.cash_balance := by
  intro i
  have hmem : orders.get i ∈ orders := orders.get_mem i.1 i.2
  have hprev : 0 ≤ (run_orders pf (orders.take i.1)).cash_balance :=
    run_orders_cash_nonneg _ pf hc
      (fun o ho => hq o (List.mem_of_mem_take ho))
  refine ⟨?_, ?_⟩
  · intro hs
    exact execute_order_success_cash _ _ _ hs
  · exact execute_order_cash_nonneg _ _ _ hprev (hq _ hmem).1 (hq _ hmem).2

/-- C3: a BUY fill against an existing position re-weights the average
cost to `((old_avg * old_qty) + quantity * price) / (old_qty + quantity)`,
and a SELL fill that leaves a positive quantity keeps the position's
average cost unchanged. -/
theorem average_cost_accounting (pf : Portfolio) (trade : Trade) (price : ℚ)
    (pos : Position)
    (hpos : get_position_by_symbol pf trade.symbol = some pos) :
    ((execute_buy_order pf trade price).1 = true →
      ∃ pos2, get_position_by_symbol (execute_buy_order pf trade price).2
          trade.symbol = some pos2 ∧
        pos2.average_cost
          = ((pos.average_cost * (pos.quantity : ℚ))
              + (trade.quantity : ℚ) * price)
            / ((pos.quantity : ℚ) + (trade.quantity : ℚ))) ∧
    (trade.quantity < pos.quantity →
      ∃ pos2, get_position_by_symbol (execute_sell_order pf trade price).2
          trade.symbol = some pos2 ∧
        pos2.average_cost = pos.average_cost) := by
  have hfind : pf.positions.find? (fun p => p.symbol == trade.symbol) = some pos := hpos
  have hpred : (pos.symbol == trade.symbol) = true := by
    have h2 := List.find?_some hfind
    simpa using h2
  constructor
  · intro hs
    by_cases hlt : pf.cash_balance < (trade.quantity : ℚ) * price
    · simp [execute_buy_order, hlt] at hs
    · have hres : (execute_buy_order pf trade price).2.positions
          = writePositionRow pf.positions trade.symbol
              (update_position (pos.quantity + trade.quantity)
                (((pos.average_cost * (pos.quantity : ℚ))
                    + (trade.quantity : ℚ) * price)
                  / ((pos.quantity + trade.quantity : ℤ) : ℚ))
                price pos) := by
        simp [execute_buy_order, hlt, get_position_by_symbol, hfind]
      refine ⟨update_position (pos.quantity + trade.quantity)
          (((pos.average_cost * (pos.quantity : ℚ)) + (trade.quantity : ℚ) * price)
            / ((pos.quantity + trade.quantity : ℤ) : ℚ)) price pos, ?_, ?_⟩
      · rw [get_position_by_symbol, hres]
        exact find?_writePositionRow _ _ _ (by simpa [update_position] using hpred)
          pos hfind
      · rw [update_position]
        push_cast
        rfl
  · intro hlt
    have hq : ¬ pos.quantity < trade.quantity := not_lt.mpr (le_of_lt hlt)
    have h0 : ¬ pos.quantity - trade.quantity = 0 := by omega
    have hres : (execute_sell_order pf trade price).2.positions
        = writePositionRow pf.positions trade.symbol
            (update_position (pos.quantity - trade.quantity)
              pos.average_cost price pos) := by
      simp [execute_sell_order, get_position_by_symbol, hfind, hq, h0]
    refine ⟨update_position (pos.quantity - trade.quantity)
        pos.average_cost price pos, ?_, ?_⟩
    · rw [get_position_by_symbol, hres]
      exact find?_writePositionRow _ _ _ (by simpa [update_position] using hpred)
        pos hfind
    · rw [update_position]

/-- C4: (i) a SELL fill for exactly the held quantity succeeds and
deletes the position row (it is not retained at zero); (ii) a BUY fill
with no existing position creates a fresh row whose average cost basis
is that fill's price; (iii) when every existing position has positive
quantity and the order quantity is positive, every position existing
after a BUY or SELL execution still has positive quantity. -/
theorem position_lifecycle (pf : Portfolio) (trade : Trade) (price : ℚ)
    (hU : (pf.positions.map Position.symbol).Nodup) :
    (∀ pos, get_position_by_symbol pf trade.symbol = some pos →
      pos.quantity = trade.quantity →
      (execute_sell_order pf trade price).1 = true ∧
      get_position_by_symbol (execute_sell_order pf trade price).2
        trade.symbol = none) ∧
    (get_position_by_symbol pf trade.symbol = none →
      (execute_buy_order pf trade price).1 = true →
      get_position_by_symbol (execute_buy_order pf trade price).2 trade.symbol
        = some (create_position trade.symbol trade.quantity price price)) ∧
    ((∀ p ∈ pf.positions, 0 < p.quantity) → 0 < trade.quantity →
      (∀ p ∈ (execute_buy_order pf trade price).2.positions, 0 < p.quantity) ∧
      (∀ p ∈ (execute_sell_order pf trade price).2.positions, 0 < p.quantity)) := by
  refine ⟨?_, ?_, ?_⟩
  · intro pos hpos heq
    have hfind : pf.positions.find? (fun p => p.symbol == trade.symbol) = some pos := hpos
    have hq : ¬ pos.quantity < trade.quantity := by omega
    have h0 : pos.quantity - trade.quantity = 0 := by omega
    have hres : (execute_sell_order pf trade price).2.positions
        = deletePositionRow pf.positions trade.symbol := by
      simp [execute_sell_order, get_position_by_symbol, hfind, hq, h0]
    refine ⟨?_, ?_⟩
    · simp [execute_sell_order, get_position_by_symbol, hfind, hq, h0]
    · rw [get_position_by_symbol, hres]
      exact find?_deletePositionRow _ _ hU pos hfind
  · intro hnone hs
    have hfind : pf.positions.find? (fun p => p.symbol == trade.symbol) = none := hnone
    by_cases hlt : pf.cash_balance < (trade.quantity : ℚ) * price
    · simp [execute_buy_order, hlt] at hs
    · have hres : (execute_buy_order pf trade price).2.positions
          = pf.positions ++ [create_position trade.symbol trade.quantity price price] := by
        simp [execute_buy_order, hlt, get_position_by_symbol, hfind]
      rw [get_position_by_symbol, hres, find?_append_right _ _ hfind]
      exact List.find?_cons_of_pos _ (by simp [create_position])
  · intro hall hqpos
    constructor
    · cases hs : (execute_buy_order pf trade price).1 with
      | false =>
        rw [buy_fail_state pf trade price hs]
        exact hall
      | true =>
        by_cases hlt : pf.cash_balance < (trade.quantity : ℚ) * price
        · simp [execute_buy_order, hlt] at hs
        · cases hfind : pf.positions.find? (fun p => p.symbol == trade.symbol) with
          | some pos =>
            have hres : (execute_buy_order pf trade price).2.positions
                = writePositionRow pf.positions trade.symbol
                    (update_position (pos.quantity + trade.quantity)
                      (((pos.average_cost * (pos.quantity : ℚ))
                          + (trade.quantity : ℚ) * price)
                        / ((pos.quantity + trade.quantity : ℤ) : ℚ))
                      price pos) := by
              simp [execute_buy_order, hlt, get_position_by_symbol, hfind]
            rw [hres]
            intro p hp
            rcases mem_writePositionRow _ _ _ _ hp with hmem | hrep
            · exact hall p hmem
            · have hposq : 0 < pos.quantity :=
                hall pos (List.mem_of_find?_eq_some hfind)
              rw [hrep]
              simp only [update_position]
              omega
          | none =>
            have hres : (execute_buy_order pf trade price).2.positions
                = pf.positions
                  ++ [create_position trade.symbol trade.quantity price price] := by
              simp [execute_buy_order, hlt, get_position_by_symbol, hfind]
            rw [hres]
            intro p hp
            rcases List.mem_append.mp hp with hmem | hnew
            · exact hall p hmem
            · rw [List.mem_singleton.mp hnew, create_position]
              exact hqpos
    · cases hs : (execute_sell_order pf trade price).1 with
      | false =>
        rw [sell_fail_state pf trade price hs]
        exact hall
      | true =>
        cases hfind : pf.positions.find? (fun p => p.symbol == trade.symbol) with
        | none => simp [execute_sell_order, get_position_by_symbol, hfind] at hs
        | some pos =>
          by_cases hq : pos.quantity < trade.quantity
          · simp [execute_sell_order, get_position_by_symbol, hfind, hq] at hs
          · by_cases h0 : pos.quantity - trade.quantity = 0
            · have hres : (execute_sell_order pf trade price).2.positions
                  = deletePositionRow pf.positions trade.symbol := by
                simp [execute_sell_order, get_position_by_symbol, hfind, hq, h0]
              rw [hres]
              intro p hp
              exact hall p (mem_deletePositionRow _ _ _ hp)
            · have hres : (execute_sell_order pf trade price).2.positions
                  = writePositionRow pf.positions trade.symbol
                      (update_position (pos.quantity - trade.quantity)
                        pos.average_cost price pos) := by
                simp [execute_sell_order, get_position_by_symbol, hfind, hq, h0]
              rw [hres]
              intro p hp
              rcases mem_writePositionRow _ _ _ _ hp with hmem | hrep
              · exact hall p hmem
              · rw [hrep]
                simp only [update_position]
                omega

/-- C5: a BUY order whose required cash strictly exceeds the cash
balance is rejected by `execute_trade`: the call reports failure, the
portfolio (cash and every position row) is returned exactly as it was,
and the trade row keeps its previous (PENDING) status. -/
theorem insufficient_funds_rejects (pf : Portfolio) (trade : Trade) (price : ℚ)
    (hside : trade.order_type = OrderType.BUY)
    (h : pf.cash_balance < (trade.quantity : ℚ) * price) :
    execute_trade (some price) pf trade = (false, pf, trade) := by
  simp [execute_trade, execute_order, hside, execute_buy_order, h]

/-- C6: with no quote available `execute_trade` fails before touching
any state: the portfolio and the trade row (hence its PENDING status)
are returned unchanged; and any successful execution consumed a price
actually supplied by the quote source, the fill being exactly
`execute_order` at that price. -/
theorem quote_guards_execution (pf : Portfolio) (trade : Trade)
    (quote : Option ℚ) :
    execute_trade none pf trade = (false, pf, trade) ∧
    ((execute_trade quote pf trade).1 = true →
      ∃ price, quote = some price ∧
        (execute_trade quote pf trade).2.1 = (execute_order pf trade price).2 ∧
        (execute_trade quote pf trade).2.2
          = { trade with status := OrderStatus.EXECUTED }) := by
  refine ⟨rfl, ?_⟩
  intro h
  cases quote with
  | none => simp [execute_trade] at h
  | some price =>
    refine ⟨price, rfl, ?_⟩
    cases hs : (execute_order pf trade price).1 with
    | false => simp [execute_trade, hs] at h
    | true => simp [execute_trade, hs]

/-- C2: the SELL path rejects exactly when no position row exists for the
order's symbol or the held quantity is strictly smaller than the
requested quantity; in every other case it fills. -/
theorem sell_rejected_iff (pf : Portfolio) (trade : Trade) (price : ℚ) :
    (execute_sell_order pf trade price).1 = false ↔
      get_position_by_symbol pf trade.symbol = none ∨
      ∃ pos, get_position_by_symbol pf trade.symbol = some pos ∧
        pos.quantity < trade.quantity := by
  cases hfind : get_position_by_symbol pf trade.symbol with
  | none => simp [execute_sell_order, hfind]
  | some pos =>
    by_cases hq : pos.quantity < trade.quantity
    · simp [execute_sell_order, hfind, hq]
    · by_cases h0 : pos.quantity - trade.quantity = 0 <;>
        simp [execute_sell_order, hfind, hq, h0]

/-! ### Valuation-engine lemmas -/

theorem revalue_positions_fst (quotes : String → Option ℚ) (ps : List Position) :
    (revalue_positions quotes ps).1
      = ps.map (fun p =>
          match quotes p.symbol with
          | some price => refresh_with_quote price p
          | none => p) := by
  induction ps with
  | nil => simp [revalue_positions]
  | cons p ps ih =>
    cases hq : quotes p.symbol with
    | some price => simp [revalue_positions, hq, ih]
    | none => simp [revalue_positions, hq, ih]

theorem revalue_positions_snd (quotes : String → Option ℚ) (ps : List Position) :
    (revalue_positions quotes ps).2
      = (((revalue_positions quotes ps).1.filter
          (fun p => (quotes p.symbol).isSome)).map Position.market_value).sum := by
  induction ps with
  | nil => simp [revalue_positions]
  | cons p ps ih =>
    cases hq : quotes p.symbol with
    | some price => simp [revalue_positions, refresh_with_quote, hq, ih]
    | none => simp [revalue_positions, hq, ih]

theorem refresh_with_quote_idem (price : ℚ) (p : Position) :
    refresh_with_quote price (refresh_with_quote price p)
      = refresh_with_quote price p := rfl

theorem revalue_positions_idem (quotes : String → Option ℚ) (ps : List Position) :
    revalue_positions quotes (revalue_positions quotes ps).1
      = revalue_positions quotes ps := by
  induction ps with
  | nil => simp [revalue_positions]
  | cons p ps ih =>
    cases hq : quotes p.symbol with
    | some price => simp [revalue_positions, refresh_with_quote, hq, ih]
    | none => simp [revalue_positions, hq, ih]

/-- C8 (amended): revaluation refreshes the `current_price`,
`market_value` and `unrealized_pnl` of every position whose quote fetch
succeeds, leaves a position whose quote fetch fails entirely at its last
known values without aborting the rest of the walk, keeps the cash
balance, and sets `total_value` to the cash balance plus the market
values of exactly the positions whose quote fetch succeeded (a
failed-quote position is left out of the total). -/
theorem revaluation_best_effort (quotes : String → Option ℚ) (pf : Portfolio) :
    (update_portfolio_value quotes pf).cash_balance = pf.cash_balance ∧
    (update_portfolio_value quotes pf).positions
      = pf.positions.map (fun p =>
          match quotes p.symbol with
          | some price => refresh_with_quote price p
          | none => p) ∧
    (update_portfolio_value quotes pf).total_value
      = pf.cash_balance
        + (((update_portfolio_value quotes pf).positions.filter
            (fun p => (quotes p.symbol).isSome)).map Position.market_value).sum := by
  refine ⟨rfl, ?_, ?_⟩
  · simpa [update_portfolio_value] using revalue_positions_fst quotes pf.positions
  · show pf.cash_balance + (revalue_positions quotes pf.positions).2 = _
    rw [revalue_positions_snd quotes pf.positions]
    rfl

/-- C8 counterexample: with one held position (market value 250) whose
quote fetch fails, revaluation sets `total_value` to the bare cash
balance 100000, not to cash plus the sum of all positions' last known
market values (100250), refuting the claim's total-value clause. -/
theorem revaluation_total_counterexample :
    (update_portfolio_value noQuotes heldPortfolio).total_value = 100000 ∧
    (update_portfolio_value noQuotes heldPortfolio).cash_balance
        + (((update_portfolio_value noQuotes heldPortfolio).positions.map
            Position.market_value).sum) = 100250 ∧
    (100000 : ℚ) ≠ 100250 := by
  refine ⟨?_, ?_, by norm_num⟩ <;>
    norm_num [update_portfolio_value, revalue_positions, noQuotes,
      heldPortfolio, heldPosition]

/-- C9: revaluation is idempotent: with an unchanged quote source,
revaluing an already revalued portfolio returns it identically (same
`market_value` and `unrealized_pnl` on every position, same
`total_value`). -/
theorem revaluation_idempotent (quotes : String → Option ℚ) (pf : Portfolio) :
    update_portfolio_value quotes (update_portfolio_value quotes pf)
      = update_portfolio_value quotes pf := by
  have h := revalue_positions_idem quotes pf.positions
  simp [update_portfolio_value, h]

/-- C7 (amended): when a signal carries a nonzero percentage, the
derived quantity is `max 1 (trunc(capital_allocation * pct/100 / price))`
only when the signal itself carries a positive price; every percentage
signal without a positive price never consults the live quote and falls
back to `max 1 (trunc(capital_allocation * max_position_size / d))`
where the denominator `d` is the literal 100 when the signal carries no
price or a zero price, and the signal's own (negative) price
otherwise. -/
theorem percentage_position_sizing (strategy : Strategy)
    (signal : WebhookSignal) (pct : ℚ)
    (hpct : signal.percentage = some pct) (hnz : pct ≠ 0) :
    (∀ pr, signal.price = some pr → 0 < pr →
      calculate_quantity strategy signal
        = max 1 (pyTrunc (strategy.capital_allocation * (pct / 100) / pr))) ∧
    (signal.price = none →
      calculate_quantity strategy signal
        = max 1 (pyTrunc (strategy.capital_allocation
            * strategy.max_position_size / 100))) ∧
    (∀ pr, signal.price = some pr → ¬ 0 < pr →
      calculate_quantity strategy signal
        = max 1 (pyTrunc (strategy.capital_allocation
            * strategy.max_position_size
            / (if pr = 0 then 100 else pr)))) := by
  refine ⟨?_, ?_, ?_⟩
  · intro pr hpr hpos
    have hne : pr ≠ 0 := ne_of_gt hpos
    simp [calculate_quantity, hpct, hnz, hpr, hne, hpos]
  · intro hpr
    simp [calculate_quantity, hpct, hnz, hpr]
  · intro pr hpr hnp
    have hcond : ¬ (pr ≠ 0 ∧ 0 < pr) := fun hc => hnp hc.2
    simp [calculate_quantity, hpct, hnz, hpr, hcond]

/-- C7 witness: a percentage-50 signal carrying price 20 on a strategy
with capital allocation 10000 resolves through the percentage branch. -/
theorem percentage_position_sizing_witness :
    calculate_quantity demoStrategy pctSignalPriced
      = max 1 (pyTrunc (demoStrategy.capital_allocation * ((50 : ℚ) / 100) / 20)) :=
  (percentage_position_sizing demoStrategy pctSignalPriced 50 rfl
    (by norm_num)).1 20 rfl (by norm_num)

/-- C7 counterexample: the spec scenario (percentage 50, no signal
price, capital allocation 10000, live quote 20) derives quantity 10 via
the `max_position_size/100` fallback, not floor(10000*0.5/20) = 250. -/
theorem percentage_sizing_counterexample :
    trade_from_signal demoStrategy pctSignal (some 20) = some (10, 20) ∧
    (10 : ℤ) ≠ 250 := by
  refine ⟨?_, by decide⟩
  norm_num [trade_from_signal, calculate_quantity, pyTrunc, demoStrategy,
    pctSignal]

/-- C10: the webhook handler looks the strategy up with a `None` user
identifier, which SQL translates to `user_id IS NULL`; in any store
where every strategy row has an owning user the lookup finds nothing, so
every webhook signal is rejected with the not-found outcome (never
reaching signature verification or order creation). -/
theorem webhook_user_filter (db : List Strategy) (signal : WebhookSignal)
    (h : ∀ s ∈ db, (s.user_id).isSome = true) :
    execute_webhook_signal db signal
      = WebhookOutcome.rejected "Strategy not found or not active" := by
  have hn : get_strategy db none signal.strategy_id = none := by
    rw [get_strategy, List.find?_eq_none]
    intro s hs hcontra
    have h2 := h s hs
    cases hy : s.user_id with
    | none => rw [hy] at h2; simp at h2
    | some y => rw [hy] at hcontra; simp at hcontra
  rw [execute_webhook_signal, hn]

/-- C10 witness: a store holding one user-owned ACTIVE strategy still
rejects the webhook signal addressed to it. -/
theorem webhook_user_filter_witness :
    execute_webhook_signal [demoStrategy] pctSignal
      = WebhookOutcome.rejected "Strategy not found or not active" :=
  webhook_user_filter [demoStrategy] pctSignal (by simp [demoStrategy])

/-- C1 witness: the first fill of the spec's happy-path scenario leaves
a nonnegative cash balance. -/
theorem cash_ledger_invariant_witness :
    0 ≤ (execute_order (run_orders demoPortfolio (demoOrders.take demoIndex.1))
        (demoOrders.get demoIndex).1 (demoOrders.get demoIndex).2).2.cash_balance :=
  (cash_ledger_invariant demoPortfolio demoOrders (by norm_num [demoPortfolio])
    (by norm_num [demoOrders, buyABC, sellABC]) demoIndex).2

/-- C3 witness: buying 10 more ABC at 50 on top of 5 held at average
cost 40 re-weights the average cost by the weighted-average formula. -/
theorem average_cost_accounting_witness :
    ∃ pos2, get_position_by_symbol (execute_buy_order heldPortfolio buyABC 50).2
        buyABC.symbol = some pos2 ∧
      pos2.average_cost
        = ((heldPosition.average_cost * (heldPosition.quantity : ℚ))
            + (buyABC.quantity : ℚ) * 50)
          / ((heldPosition.quantity : ℚ) + (buyABC.quantity : ℚ)) :=
  (average_cost_accounting heldPortfolio buyABC 50 heldPosition rfl).1
    (by norm_num [execute_buy_order, heldPortfolio, heldPosition, buyABC,
      get_position_by_symbol])

/-- C4 witness: selling exactly the 5 held ABC shares succeeds and
removes the position row. -/
theorem position_lifecycle_witness :
    (execute_sell_order heldPortfolio sellAllABC 60).1 = true ∧
    get_position_by_symbol (execute_sell_order heldPortfolio sellAllABC 60).2
      sellAllABC.symbol = none :=
  (position_lifecycle heldPortfolio sellAllABC 60
      (by simp [heldPortfolio, heldPosition])).1
    heldPosition rfl rfl

/-- C5 witness: the spec's insufficient-funds scenario (BUY 1000 at 200
against cash 100000) is rejected with all state unchanged. -/
theorem insufficient_funds_rejects_witness :
    execute_trade (some 200) demoPortfolio bigBuy
      = (false, demoPortfolio, bigBuy) :=
  insufficient_funds_rejects demoPortfolio bigBuy 200 rfl
    (by norm_num [demoPortfolio, bigBuy])

/-- C6 witness: with no quote available the engine rejects and leaves
the portfolio and the pending trade untouched. -/
theorem quote_guards_execution_witness :
    execute_trade none demoPortfolio buyABC = (false, demoPortfolio, buyABC) :=
  (quote_guards_execution demoPortfolio buyABC none).1

end VTP
